import Mathlib

/-!
Shallow embedding of `deepcool-digital-linux` (src/main.rs), a utility that
polls CPU telemetry (utilization, RAPL energy, hwmon temperature) and writes
64-byte HID status packets to a DeepCool display device.

Modelling conventions:
* Machine integers are `Nat` with explicit `% 2^w` where Rust release-mode
  wrapping matters (u32 multiply in `get_temp`, u64 subtract in the power
  delta).
* Rust float arithmetic on values derived from integers is modelled exactly
  over `ℚ`.  For every quantity the program computes, the inputs fed to the
  float unit are integers, division is by an integer constant, and
  `f64::round` / `f32::round` is round-half-away-from-zero; theorems that
  depend on the float result matching exact rational arithmetic carry
  magnitude hypotheses (`< 2^52` style) under which the IEEE operations are
  exact or correctly rounded with error too small to cross a rounding
  boundary.  Saturating `as` casts (Rust float-to-int semantics) are
  modelled by `satCastU8` / `satCastU16`.
* Fallible actions (file reads, device discovery) take their environment as
  an explicit argument (a list of read results, a device list) and return
  `Except Unit α`, where `.error ()` stands for the fatal `exit(1)` path.
-/

/-- Rust `f64::round` / `f32::round`: round half away from zero. -/
def rustRound (q : ℚ) : ℤ :=
  if q < 0 then -⌊-q + 1/2⌋ else ⌊q + 1/2⌋

/-- Rust saturating float-to-`u8` cast (`as u8` on a float). -/
def satCastU8 (z : ℤ) : Nat :=
  if z < 0 then 0 else min z.toNat 255

/-- Rust saturating float-to-`u16` cast (`as u16` on a float). -/
def satCastU16 (z : ℤ) : Nat :=
  if z < 0 then 0 else min z.toNat 65535

/-- `u16::to_be_bytes`. -/
def u16BeBytes (v : Nat) : Nat × Nat := (v / 256 % 256, v % 256)

/-- The fixed vendor id `0x3633` of `main.rs`. -/
def VENDOR : Nat := 0x3633

/-! ## Temperature reading (`get_temp`) -/

/--
The millidegree value `get_temp` scales down: the parsed raw value `c`
(a `u32`), after the optional Fahrenheit conversion `c * 9/5 + 32000` in
`u32` arithmetic (the multiply wraps mod `2^32` in release mode; the
division by 5 truncates). -/
def get_temp_milli (c : Nat) (fahrenheit : Bool) : Nat :=
  let k10temp : Nat := c % 2^32
  if fahrenheit then (k10temp * 9) % 2^32 / 5 + 32000 else k10temp

/--
`get_temp` from `main.rs`: computes `(k10temp as f32 / 1000.0).round() as u8`
on the converted millidegree value.

The float step is modelled exactly over `ℚ`; the model agrees with the
`f32` computation for every `u32` input: below `2^24` the `u32 → f32`
conversion is exact and the division correctly rounded (error far below the
distance to a half-integer boundary), and above `2^24` both the exact and
the floating value exceed 255 so the saturating cast returns 255 either way.
-/
def get_temp (c : Nat) (fahrenheit : Bool) : Nat :=
  satCastU8 (rustRound ((get_temp_milli c fahrenheit : ℚ) / 1000))

/-! ## IEEE-754 binary32 encoding of the temperature byte

`main.rs` sends `(get_temp(..) as f32).to_be_bytes()`.  `get_temp` returns a
`u8`, so only exact small-integer `f32` values ever get encoded.
-/

/-- The IEEE-754 binary32 bit pattern of a natural number `n < 2^24`
(conversion is exact in that range): zero encodes as all-zero bits, and a
positive `n ∈ [2^e, 2^(e+1))` has exponent field `e + 127` and mantissa
`(n - 2^e) * 2^(23-e)`. -/
def f32BitsOfNat (n : Nat) : Nat :=
  if n = 0 then 0 else
    let e := Nat.log2 n
    (e + 127) * 2^23 + (n - 2^e) * 2^(23 - e)

/-- `f32::to_be_bytes` applied to the exact `f32` value of `n`. -/
def f32BeBytes (n : Nat) : Nat × Nat × Nat × Nat :=
  let bits := f32BitsOfNat n
  (bits / 2^24 % 256, bits / 2^16 % 256, bits / 2^8 % 256, bits % 256)

/-- Decode an IEEE-754 binary32 bit pattern back to its real value
(finite patterns; an exponent field of 255 is not given special treatment
because the program never produces one). -/
def decodeF32 (bits : Nat) : ℚ :=
  let sign : Nat := bits / 2^31
  let e : Nat := bits / 2^23 % 256
  let m : Nat := bits % 2^23
  let mag : ℚ := if e = 0 then (m : ℚ) / 2^149 else ((2^23 + m : Nat) : ℚ) * 2^e / 2^150
  if sign = 1 then -mag else mag

/-! ## Power draw -/

/-- Rust release-mode `u64` wrapping subtraction, as performed on the two
cumulative microjoule readings (`cpu_power_end - cpu_power_start`). -/
def u64WrappingSub (a b : Nat) : Nat :=
  (a % 2^64 + 2^64 - b % 2^64) % 2^64

/-- The power value `(cpu_power_end - cpu_power_start) as f64 / (poll * 1000) as f64`
from the display loop, modelled exactly over `ℚ` (the `u64` multiply
`poll * 1000` wraps mod `2^64` in release mode). -/
def cpu_power (eStart eEnd poll : Nat) : ℚ :=
  (u64WrappingSub eEnd eStart : ℚ) / ((poll * 1000) % 2^64 : Nat)

/-- The two power bytes `(cpu_power.round() as u16).to_be_bytes()`. -/
def powerBytes (p : ℚ) : Nat × Nat :=
  u16BeBytes (satCastU16 (rustRound p))

/-! ## Utilization -/

/-- Byte 15 of the status frame:
`((cpu_util_end - cpu_util_start).non_idle() * 100.0).round() as u8`,
as a function of the non-idle fraction reported by the sampler. -/
def utilByte (nonIdle : ℚ) : Nat :=
  satCastU8 (rustRound (nonIdle * 100))

/-! ## Packet construction -/

/-- The telemetry gathered in one cycle of the display loop, as consumed by
the frame construction: the power-draw float, the raw millidegree
temperature reading that `get_temp` is applied to, the unit flag, and the
non-idle fraction. -/
structure TelemetrySample where
  power : ℚ
  tempRaw : Nat
  fahrenheit : Bool
  nonIdle : ℚ

/-- The `data` block of `main`: 64 zero bytes with
`data[0]=16; data[1]=104; data[2]=1; data[3]=1`. -/
def baseData : List Nat :=
  [16, 104, 1, 1] ++ List.replicate 60 0

/-- The first init packet: `init_data[4]=2; [5]=3; [6]=1; [7]=112; [8]=22`. -/
def initData1 : List Nat :=
  (((((baseData.set 4 2).set 5 3).set 6 1).set 7 112).set 8 22)

/-- The second init packet: the first one with `[5]=2` and `[7]=111`. -/
def initData2 : List Nat :=
  (initData1.set 5 2).set 7 111

/-- The checksum as computed in `main.rs`:
`status_data[1..=15].iter().map(|&x| x as u16).sum()` — the sum of bytes
1 through 15 (it cannot overflow `u16`: at most `15 * 255`). -/
def checksumOf (l : List Nat) : Nat :=
  ((l.drop 1).take 15).sum

/-- One iteration of the display loop's frame construction: clone `data`,
set the status header bytes, the power bytes, the unit flag, the four
big-endian `f32` temperature bytes, the utilization byte, and finally the
checksum and the terminator byte. -/
def build_status_frame (s : TelemetrySample) : List Nat :=
  let d := (((baseData.set 4 11).set 5 1).set 6 2).set 7 5
  let pb := powerBytes s.power
  let d := (d.set 8 pb.1).set 9 pb.2
  let d := d.set 10 (if s.fahrenheit then 1 else 0)
  let t := f32BeBytes (get_temp s.tempRaw s.fahrenheit)
  let d := (((d.set 11 t.1).set 12 t.2.1).set 13 t.2.2.1).set 14 t.2.2.2
  let d := d.set 15 (utilByte s.nonIdle)
  let d := d.set 16 (checksumOf d % 256)
  d.set 17 22

/-! ## Sensor discovery (`find_cpu_sensor`) -/

/-- The endpoint path `format!("/sys/class/hwmon/hwmon{i}/temp1_input")`. -/
def hwmonTempPath (i : Nat) : String :=
  "/sys/class/hwmon/hwmon" ++ toString i ++ "/temp1_input"

/-- Rust `str::trim_end`, as applied to a hwmon chip name: drop trailing
whitespace characters. -/
def trimEnd (s : String) : String :=
  ⟨(s.data.reverse.dropWhile Char.isWhitespace).reverse⟩

/-- The match test of `find_cpu_sensor`: the trimmed name equals
`"k10temp"` or `"coretemp"`. -/
def isCpuSensorName (data : String) : Bool :=
  let hwname := trimEnd data
  hwname == "k10temp" || hwname == "coretemp"

/-- `find_cpu_sensor`, with the filesystem supplied as the list of results
of reading `/sys/class/hwmon/hwmon{i}/name` for `i = 0, 1, ...`:
`some data` is a successful `read_to_string`, `none` a failed one, and
every index past the end of the list reads as failed.  The loop scans
upward from 0, returns the `temp1_input` path at the first matching name,
and exits fatally (`.error ()`) at the first failing read. -/
def find_cpu_sensor_from (i : Nat) : List (Option String) → Except Unit String
  | [] => .error ()
  | none :: _ => .error ()
  | some data :: rest =>
      if isCpuSensorName data then .ok (hwmonTempPath i)
      else find_cpu_sensor_from (i + 1) rest

/-- `find_cpu_sensor` started at index 0. -/
def find_cpu_sensor (reads : List (Option String)) : Except Unit String :=
  find_cpu_sensor_from 0 reads

/-- The result of reading the name file at index `i` under the list model:
failures beyond the end of the list coincide with in-list failures. -/
def readNameAt (reads : List (Option String)) (i : Nat) : Option String :=
  (reads.get? i).getD none

/-! ## Device discovery -/

/-- The discovery loop of `main`: `product_id` starts at 0; the first
device whose vendor id equals `VENDOR` sets `product_id` and breaks. -/
def discovered_product_id (devices : List (Nat × Nat)) : Nat :=
  match devices.find? (fun d => d.1 == VENDOR) with
  | some d => d.2
  | none => 0

/-- Device discovery: after the loop, `if product_id == 0` prints
"Device not found!" and exits 1; otherwise the program proceeds to open
`(VENDOR, product_id)`. -/
def device_discovery (devices : List (Nat × Nat)) : Except Unit Nat :=
  let pid := discovered_product_id devices
  if pid = 0 then .error () else .ok pid

/-! ## Helper lemmas -/

lemma rustRound_of_nonneg {q : ℚ} (h : 0 ≤ q) : rustRound q = ⌊q + 1/2⌋ := by
  rw [rustRound, if_neg (not_lt.2 h)]

/-- For natural `k`, `n`, the rounded quotient `k / n` is the natural number
`(2 * k + n) / (2 * n)` (Nat division; for `n = 0` both sides are zero). -/
lemma rustRound_natCast_div (k n : ℕ) :
    rustRound ((k : ℚ) / (n : ℚ)) = (((2 * k + n) / (2 * n) : ℕ) : ℤ) := by
  rcases Nat.eq_zero_or_pos n with hn | hn
  · subst hn
    norm_num [rustRound]
  · rw [rustRound_of_nonneg (by positivity)]
    have h1 : (k : ℚ) / (n : ℚ) + 1/2 = ((2 * k + n : ℕ) : ℚ) / ((2 * n : ℕ) : ℚ) := by
      have hne : (n : ℚ) ≠ 0 := Nat.cast_ne_zero.2 hn.ne'
      push_cast
      field_simp
      ring
    rw [h1, Rat.floor_natCast_div_natCast]
    exact_mod_cast rfl

lemma rustRound_nonneg {q : ℚ} (h : 0 ≤ q) : 0 ≤ rustRound q := by
  rw [rustRound_of_nonneg h]
  exact Int.le_floor.2 (by push_cast; linarith)

lemma rustRound_le_of_le {q : ℚ} {b : ℤ} (h0 : 0 ≤ q) (h : q + 1/2 < b + 1) :
    rustRound q ≤ b := by
  rw [rustRound_of_nonneg h0]
  exact Int.lt_add_one_iff.1 (Int.floor_lt.2 (by push_cast; linarith))

lemma rustRound_ge_of_ge {q : ℚ} {b : ℤ} (h0 : 0 ≤ q) (h : (b : ℚ) ≤ q) :
    b ≤ rustRound q := by
  rw [rustRound_of_nonneg h0]
  exact Int.le_floor.2 (by linarith)

lemma satCastU8_of_le {z : ℤ} (h0 : 0 ≤ z) (h : z ≤ 255) :
    satCastU8 z = z.toNat := by
  rw [satCastU8, if_neg (not_lt.2 h0)]
  exact min_eq_left (by omega)

lemma satCastU8_of_gt {z : ℤ} (h : 255 < z) : satCastU8 z = 255 := by
  rw [satCastU8, if_neg (not_lt.2 (by omega))]
  exact min_eq_right (by omega)

lemma satCastU8_le (z : ℤ) : satCastU8 z ≤ 255 := by
  rw [satCastU8]
  split
  · omega
  · exact min_le_right _ _

lemma satCastU16_of_le {z : ℤ} (h0 : 0 ≤ z) (h : z ≤ 65535) :
    satCastU16 z = z.toNat := by
  rw [satCastU16, if_neg (not_lt.2 h0)]
  exact min_eq_left (by omega)

lemma satCastU16_of_gt {z : ℤ} (h : 65535 < z) : satCastU16 z = 65535 := by
  rw [satCastU16, if_neg (not_lt.2 (by omega))]
  exact min_eq_right (by omega)

/-- For a positive `n < 2^24`, the mantissa field of its binary32 pattern
fits in 23 bits. -/
lemma f32MantissaLt (n : ℕ) (hne : n ≠ 0) :
    (n - 2 ^ Nat.log2 n) * 2 ^ (23 - Nat.log2 n) < 2 ^ 23 ∨ 23 < Nat.log2 n := by
  rcases Nat.lt_or_ge (Nat.log2 n) 24 with he | he
  · left
    have hlt : n < 2 ^ (Nat.log2 n + 1) := Nat.lt_log2_self
    have hsub : n - 2 ^ Nat.log2 n < 2 ^ Nat.log2 n := by
      have h2 : 2 ^ (Nat.log2 n + 1) = 2 ^ Nat.log2 n + 2 ^ Nat.log2 n := by ring
      have hle : 2 ^ Nat.log2 n ≤ n := Nat.log2_self_le hne
      omega
    have h2 : (n - 2 ^ Nat.log2 n) * 2 ^ (23 - Nat.log2 n) <
        2 ^ Nat.log2 n * 2 ^ (23 - Nat.log2 n) :=
      mul_lt_mul_of_pos_right hsub (pow_pos (by norm_num) _)
    have h3 : 2 ^ Nat.log2 n * 2 ^ (23 - Nat.log2 n) = 2 ^ 23 := by
      rw [← pow_add]
      congr 1
      omega
    omega
  · right
    omega

/-- Decoding a normal binary32 pattern with exponent field `e + 127` and
mantissa `M`. -/
lemma decodeF32_normal (e M : ℕ) (he : e < 128) (hM : M < 2 ^ 23) :
    decodeF32 ((e + 127) * 2 ^ 23 + M) =
      ((2 ^ 23 + M : ℕ) : ℚ) * 2 ^ (e + 127) / 2 ^ 150 := by
  have hsign : ((e + 127) * 2 ^ 23 + M) / 2 ^ 31 = 0 := by omega
  have hef : ((e + 127) * 2 ^ 23 + M) / 2 ^ 23 % 256 = e + 127 := by omega
  have hmf : ((e + 127) * 2 ^ 23 + M) % 2 ^ 23 = M := by omega
  simp only [decodeF32, hsign, hef, hmf]
  rw [if_neg (by omega : ¬ (e + 127 = 0)), if_neg (by norm_num)]

set_option maxRecDepth 4000 in
/-- Round trip: the binary32 pattern of `n < 2^24` decodes back to `n`
exactly (integer-valued, no rounding). -/
lemma decodeF32_f32BitsOfNat (n : Nat) (hn : n < 2 ^ 24) :
    decodeF32 (f32BitsOfNat n) = (n : ℚ) := by
  rcases Nat.eq_zero_or_pos n with h0 | h0
  · subst h0
    have h : f32BitsOfNat 0 = 0 := rfl
    rw [h]
    simp only [decodeF32]
    norm_num
  · have hne : n ≠ 0 := h0.ne'
    have he23 : Nat.log2 n < 24 := by
      have := (Nat.log2_lt hne).2 hn
      omega
    have hM : (n - 2 ^ Nat.log2 n) * 2 ^ (23 - Nat.log2 n) < 2 ^ 23 := by
      rcases f32MantissaLt n hne with h | h
      · exact h
      · omega
    rw [f32BitsOfNat, if_neg hne]
    simp only
    set e := Nat.log2 n with he
    have hle : 2 ^ e ≤ n := Nat.log2_self_le hne
    rw [decodeF32_normal _ _ (by omega) hM]
    have hkey : (2 ^ 23 + (n - 2 ^ e) * 2 ^ (23 - e) : ℕ) = 2 ^ (23 - e) * n := by
      have hsplit : 2 ^ (23 - e) * n = 2 ^ (23 - e) * 2 ^ e + 2 ^ (23 - e) * (n - 2 ^ e) := by
        rw [← Nat.mul_add]
        congr 1
        omega
      have h3 : 2 ^ (23 - e) * 2 ^ e = 2 ^ 23 := by
        rw [← pow_add]
        congr 1
        omega
      rw [hsplit, h3]
      ring
    rw [hkey]
    push_cast
    have hpow : (2 : ℚ) ^ (23 - e) * 2 ^ (e + 127) = 2 ^ 150 := by
      rw [← pow_add]
      congr 1
      omega
    rw [show ((2:ℚ) ^ (23 - e) * (n:ℚ)) * 2 ^ (e + 127) =
        (n:ℚ) * ((2:ℚ) ^ (23 - e) * 2 ^ (e + 127)) from by ring, hpow]
    field_simp

/-- The binary32 pattern of `n < 2^24` fits in 32 bits. -/
lemma f32BitsOfNat_lt (n : Nat) (hn : n < 2 ^ 24) : f32BitsOfNat n < 2 ^ 32 := by
  rcases Nat.eq_zero_or_pos n with h0 | h0
  · subst h0
    rw [show f32BitsOfNat 0 = 0 from rfl]
    norm_num
  · have hne : n ≠ 0 := h0.ne'
    have he23 : Nat.log2 n < 24 := by
      have := (Nat.log2_lt hne).2 hn
      omega
    have hM : (n - 2 ^ Nat.log2 n) * 2 ^ (23 - Nat.log2 n) < 2 ^ 23 := by
      rcases f32MantissaLt n hne with h | h
      · exact h
      · omega
    rw [f32BitsOfNat, if_neg hne]
    simp only
    omega

/-- If index `k` holds the first matching name and every earlier read
succeeds with a non-matching name, the scan started at `i` returns the
endpoint for overall index `i + k`. -/
lemma find_from_ok (reads : List (Option String)) (i k : Nat) (s : String)
    (hs : readNameAt reads k = some s) (hm : isCpuSensorName s = true)
    (hk : ∀ j < k, ∃ t, readNameAt reads j = some t ∧ isCpuSensorName t = false) :
    find_cpu_sensor_from i reads = .ok (hwmonTempPath (i + k)) := by
  induction reads generalizing i k with
  | nil => simp [readNameAt] at hs
  | cons hd tl ih =>
      match hd with
      | none =>
          rcases Nat.eq_zero_or_pos k with h0 | h0
          · subst h0
            simp [readNameAt] at hs
          · obtain ⟨t, ht, _⟩ := hk 0 h0
            simp [readNameAt] at ht
      | some d =>
          rcases Nat.eq_zero_or_pos k with h0 | h0
          · subst h0
            simp [readNameAt] at hs
            subst hs
            simp [find_cpu_sensor_from, hm]
          · obtain ⟨k', rfl⟩ : ∃ k', k = k' + 1 := ⟨k - 1, by omega⟩
            have hd0 : isCpuSensorName d = false := by
              obtain ⟨t, ht, htf⟩ := hk 0 h0
              simp [readNameAt] at ht
              rw [ht]
              exact htf
            have hs' : readNameAt tl k' = some s := by
              simpa [readNameAt] using hs
            have hk' : ∀ j < k', ∃ t, readNameAt tl j = some t ∧ isCpuSensorName t = false := by
              intro j hj
              have := hk (j + 1) (by omega)
              simpa [readNameAt] using this
            rw [find_cpu_sensor_from, if_neg (by simp [hd0])]
            rw [ih (i + 1) k' hs' hk']
            congr 2
            omega

/-- The scan started at `i` exits fatally exactly when some read fails
before any matching name is seen. -/
lemma find_from_error_iff (reads : List (Option String)) (i : Nat) :
    find_cpu_sensor_from i reads = .error () ↔
      ∃ k, readNameAt reads k = none ∧
        ∀ j < k, ∃ t, readNameAt reads j = some t ∧ isCpuSensorName t = false := by
  induction reads generalizing i with
  | nil =>
      simp [find_cpu_sensor_from, readNameAt]
      exact ⟨0, by omega⟩
  | cons hd tl ih =>
      match hd with
      | none =>
          constructor
          · intro _
            exact ⟨0, by simp [readNameAt], by omega⟩
          · intro _
            rfl
      | some d =>
          by_cases hm : isCpuSensorName d
          · rw [find_cpu_sensor_from, if_pos hm]
            constructor
            · intro h
              cases h
            · rintro ⟨k, hk, hall⟩
              rcases Nat.eq_zero_or_pos k with h0 | h0
              · subst h0
                simp [readNameAt] at hk
              · obtain ⟨t, ht, htf⟩ := hall 0 h0
                simp [readNameAt] at ht
                rw [ht] at hm
                rw [hm] at htf
                cases htf
          · rw [find_cpu_sensor_from, if_neg hm]
            rw [ih (i + 1)]
            constructor
            · rintro ⟨k, hk, hall⟩
              refine ⟨k + 1, by simpa [readNameAt] using hk, ?_⟩
              intro j hj
              rcases Nat.eq_zero_or_pos j with h0 | h0
              · subst h0
                exact ⟨d, by simp [readNameAt], by simpa using hm⟩
              · obtain ⟨j', rfl⟩ : ∃ j', j = j' + 1 := ⟨j - 1, by omega⟩
                obtain ⟨t, ht, htf⟩ := hall j' (by omega)
                exact ⟨t, by simpa [readNameAt] using ht, htf⟩
            · rintro ⟨k, hk, hall⟩
              rcases Nat.eq_zero_or_pos k with h0 | h0
              · subst h0
                simp [readNameAt] at hk
              · obtain ⟨k', rfl⟩ : ∃ k', k = k' + 1 := ⟨k - 1, by omega⟩
                refine ⟨k', by simpa [readNameAt] using hk, ?_⟩
                intro j hj
                obtain ⟨t, ht, htf⟩ := hall (j + 1) (by omega)
                exact ⟨t, by simpa [readNameAt] using ht, htf⟩

/-! ## Status-frame structure facts -/

/-- Abbreviation for the byte list of the frame under construction just
before the checksum and terminator are written (bytes 16 and 17 still hold
the zeros inherited from `data`). -/
def statusPre (s : TelemetrySample) : List Nat :=
  [16, 104, 1, 1, 11, 1, 2, 5,
   (powerBytes s.power).1, (powerBytes s.power).2,
   (if s.fahrenheit then 1 else 0),
   (f32BeBytes (get_temp s.tempRaw s.fahrenheit)).1,
   (f32BeBytes (get_temp s.tempRaw s.fahrenheit)).2.1,
   (f32BeBytes (get_temp s.tempRaw s.fahrenheit)).2.2.1,
   (f32BeBytes (get_temp s.tempRaw s.fahrenheit)).2.2.2,
   utilByte s.nonIdle, 0, 0] ++ List.replicate 46 0

set_option maxHeartbeats 4000000 in
/-- `build_status_frame` written out as an explicit 64-byte list. -/
lemma build_status_frame_eq (s : TelemetrySample) :
    build_status_frame s =
      [16, 104, 1, 1, 11, 1, 2, 5,
       (powerBytes s.power).1, (powerBytes s.power).2,
       (if s.fahrenheit then 1 else 0),
       (f32BeBytes (get_temp s.tempRaw s.fahrenheit)).1,
       (f32BeBytes (get_temp s.tempRaw s.fahrenheit)).2.1,
       (f32BeBytes (get_temp s.tempRaw s.fahrenheit)).2.2.1,
       (f32BeBytes (get_temp s.tempRaw s.fahrenheit)).2.2.2,
       utilByte s.nonIdle,
       checksumOf (statusPre s) % 256, 22] ++ List.replicate 46 0 := rfl

lemma status_frame_length (s : TelemetrySample) :
    (build_status_frame s).length = 64 := by
  rw [build_status_frame_eq]
  rfl

lemma status_frame_byte0 (s : TelemetrySample) :
    (build_status_frame s).getD 0 0 = 16 := by
  rw [build_status_frame_eq]
  rfl

lemma status_frame_byte17 (s : TelemetrySample) :
    (build_status_frame s).getD 17 0 = 22 := by
  rw [build_status_frame_eq]
  rfl

lemma status_frame_byte16 (s : TelemetrySample) :
    (build_status_frame s).getD 16 0 =
      (((build_status_frame s).drop 1).take 15).sum % 256 := by
  rw [build_status_frame_eq]
  simp [checksumOf, statusPre]

lemma status_frame_tail (s : TelemetrySample) :
    (build_status_frame s).drop 18 = List.replicate 46 0 := by
  rw [build_status_frame_eq]
  rfl

lemma status_frame_byte8 (s : TelemetrySample) :
    (build_status_frame s).getD 8 0 = (powerBytes s.power).1 := by
  rw [build_status_frame_eq]
  rfl

lemma status_frame_byte9 (s : TelemetrySample) :
    (build_status_frame s).getD 9 0 = (powerBytes s.power).2 := by
  rw [build_status_frame_eq]
  rfl

lemma status_frame_byte15 (s : TelemetrySample) :
    (build_status_frame s).getD 15 0 = utilByte s.nonIdle := by
  rw [build_status_frame_eq]
  rfl

lemma status_frame_byte11 (s : TelemetrySample) :
    (build_status_frame s).getD 11 0 =
      (f32BeBytes (get_temp s.tempRaw s.fahrenheit)).1 := by
  rw [build_status_frame_eq]
  rfl

lemma status_frame_byte12 (s : TelemetrySample) :
    (build_status_frame s).getD 12 0 =
      (f32BeBytes (get_temp s.tempRaw s.fahrenheit)).2.1 := by
  rw [build_status_frame_eq]
  rfl

lemma status_frame_byte13 (s : TelemetrySample) :
    (build_status_frame s).getD 13 0 =
      (f32BeBytes (get_temp s.tempRaw s.fahrenheit)).2.2.1 := by
  rw [build_status_frame_eq]
  rfl

lemma status_frame_byte14 (s : TelemetrySample) :
    (build_status_frame s).getD 14 0 =
      (f32BeBytes (get_temp s.tempRaw s.fahrenheit)).2.2.2 := by
  rw [build_status_frame_eq]
  rfl

/-! ## Claim theorems -/

/-- Claim C1: for every TelemetrySample (power-draw value, utilization
fraction, temperature reading, unit flag), the status frame built in the
steady-state loop is exactly 64 bytes, with byte 0 = 16, byte 17 = 22,
byte 16 equal to the sum of bytes 1 through 15 inclusive taken modulo 256,
and bytes 18 through 63 all zero. -/
theorem claim_C1_status_frame_shape (s : TelemetrySample) :
    (build_status_frame s).length = 64 ∧
    (build_status_frame s).getD 0 0 = 16 ∧
    (build_status_frame s).getD 17 0 = 22 ∧
    (build_status_frame s).getD 16 0 =
      (((build_status_frame s).drop 1).take 15).sum % 256 ∧
    (build_status_frame s).drop 18 = List.replicate 46 0 :=
  ⟨status_frame_length s, status_frame_byte0 s, status_frame_byte17 s,
    status_frame_byte16 s, status_frame_tail s⟩

/-- Claim C2 counterexample: the claim fails on the two init handshake
packets. The first init packet carries 0 at byte 17 (not the terminator
22) and 0 at byte 16, which does not match the checksum 246 of its bytes
1 through 15. -/
theorem claim_C2_counterexample :
    initData1.getD 17 0 ≠ 22 ∧
    initData1.getD 16 0 ≠ checksumOf initData1 % 256 := by
  constructor
  · decide
  · decide

/-- Claim C2 amended: every packet the program transmits is exactly 64
bytes; every status frame carries a checksum at byte 16 consistent with
bytes 1 through 15 and the terminator 22 at byte 17; the two init
handshake packets instead carry 0 at both byte 16 and byte 17 (no
checksum, no terminator). -/
theorem claim_C2_amended :
    initData1.length = 64 ∧ initData2.length = 64 ∧
    initData1.getD 16 0 = 0 ∧ initData1.getD 17 0 = 0 ∧
    initData2.getD 16 0 = 0 ∧ initData2.getD 17 0 = 0 ∧
    ∀ s : TelemetrySample,
      (build_status_frame s).length = 64 ∧
      (build_status_frame s).getD 16 0 =
        (((build_status_frame s).drop 1).take 15).sum % 256 ∧
      (build_status_frame s).getD 17 0 = 22 :=
  ⟨by decide, by decide, by decide, by decide, by decide, by decide,
    fun s => ⟨status_frame_length s, status_frame_byte16 s, status_frame_byte17 s⟩⟩

/-- Claim C3: temperature-sensor resolution scans hwmon indices upward from
0; it returns the `temp1_input` endpoint of the first index whose trimmed
name is one of the two recognized identifiers; it exits fatally exactly
when the read at the current index fails (never merely because names fail
to match); and on the name sequence `["acpi", "k10temp", "nvme"]` it
returns the index-1 endpoint. -/
theorem claim_C3_sensor_resolution :
    (∀ (reads : List (Option String)) (k : Nat) (s : String),
      readNameAt reads k = some s → isCpuSensorName s = true →
      (∀ j < k, ∃ t, readNameAt reads j = some t ∧ isCpuSensorName t = false) →
      find_cpu_sensor reads = .ok (hwmonTempPath k)) ∧
    (∀ reads : List (Option String),
      find_cpu_sensor reads = .error () ↔
        ∃ k, readNameAt reads k = none ∧
          ∀ j < k, ∃ t, readNameAt reads j = some t ∧ isCpuSensorName t = false) ∧
    find_cpu_sensor [some "acpi", some "k10temp", some "nvme"] =
      .ok "/sys/class/hwmon/hwmon1/temp1_input" := by
  refine ⟨?_, ?_, ?_⟩
  · intro reads k s hs hm hk
    have := find_from_ok reads 0 k s hs hm hk
    rwa [Nat.zero_add] at this
  · intro reads
    exact find_from_error_iff reads 0
  · rfl

/-- Claim C3 witness: on the concrete read sequence
`["acpi", "k10temp", "nvme"]`, index 1 holds the first recognized name, so
resolution returns the index-1 endpoint. -/
theorem claim_C3_sensor_resolution_witness :
    find_cpu_sensor [some "acpi", some "k10temp", some "nvme"] =
      .ok (hwmonTempPath 1) :=
  claim_C3_sensor_resolution.1 [some "acpi", some "k10temp", some "nvme"] 1 "k10temp"
    rfl (by decide)
    (fun j hj =>
      match j, hj with
      | 0, _ => ⟨"acpi", rfl, by decide⟩)

/-- Claim C4 counterexample: at raw reading c = 200000 the claimed formula
value is 392 but `get_temp` returns the saturated value 255. -/
theorem claim_C4_counterexample :
    get_temp 200000 true = 255 ∧
    rustRound (((200000 : ℚ) * 9 / 5 + 32000) / 1000) = 392 ∧
    ((get_temp 200000 true : ℤ) ≠ rustRound (((200000 : ℚ) * 9 / 5 + 32000) / 1000)) := by
  have hm : get_temp_milli 200000 true = 392000 := by norm_num [get_temp_milli]
  have hg : get_temp 200000 true = 255 := by
    rw [get_temp, hm]
    norm_num [rustRound, satCastU8]
  have hr : rustRound (((200000 : ℚ) * 9 / 5 + 32000) / 1000) = 392 := by
    norm_num [rustRound]
  refine ⟨hg, hr, ?_⟩
  rw [hg, hr]
  norm_num

/-- Claim C4 amended: for every raw millidegree-Celsius reading `c` whose
claimed display value `round((c*9/5+32000)/1000)` is at most 255, the
Fahrenheit display value produced by `get_temp` equals that rounded value
(the counterexample shows larger values saturate to 255 instead). -/
theorem claim_C4_amended (c : Nat)
    (hle : rustRound (((c : ℚ) * 9 / 5 + 32000) / 1000) ≤ 255) :
    (get_temp c true : ℤ) = rustRound (((c : ℚ) * 9 / 5 + 32000) / 1000) := by
  have hq : ((c : ℚ) * 9 / 5 + 32000) / 1000 =
      ((18 * c + 320000 : ℕ) : ℚ) / ((10000 : ℕ) : ℚ) := by
    push_cast
    ring
  rw [hq, rustRound_natCast_div] at hle ⊢
  have hR : (2 * (18 * c + 320000) + 10000) / (2 * 10000) ≤ 255 := by exact_mod_cast hle
  have hmilli : get_temp_milli c true = c * 9 / 5 + 32000 := by
    have h1 : c % 2^32 = c := Nat.mod_eq_of_lt (by omega)
    have h2 : (c * 9) % 2^32 = c * 9 := Nat.mod_eq_of_lt (by omega)
    simp only [get_temp_milli, if_pos, h1, h2]
  rw [get_temp, hmilli]
  rw [show ((1000 : ℚ)) = ((1000 : ℕ) : ℚ) from by norm_num, rustRound_natCast_div]
  have hmR : (2 * (c * 9 / 5 + 32000) + 1000) / (2 * 1000) =
      (2 * (18 * c + 320000) + 10000) / (2 * 10000) := by omega
  have hm255 : (2 * (c * 9 / 5 + 32000) + 1000) / (2 * 1000) ≤ 255 := by omega
  rw [satCastU8_of_le (Int.natCast_nonneg _) (by exact_mod_cast hm255)]
  rw [Int.toNat_natCast]
  exact_mod_cast hmR

/-- Claim C4 witness: the reading c = 45000 satisfies the bound and yields
the display value 113. -/
theorem claim_C4_amended_witness :
    rustRound ((((45000 : ℕ) : ℚ) * 9 / 5 + 32000) / 1000) ≤ 255 ∧
    get_temp 45000 true = 113 := by
  have h : rustRound ((((45000 : ℕ) : ℚ) * 9 / 5 + 32000) / 1000) = 113 := by
    norm_num [rustRound]
  have h2 := claim_C4_amended 45000 (by rw [h]; norm_num)
  rw [h] at h2
  exact ⟨by rw [h]; norm_num, by exact_mod_cast h2⟩

/-- For a value within `u16` range, the high big-endian byte needs no
second reduction mod 256. -/
lemma hi_byte_mod (n : ℕ) (h : n ≤ 65535) : n / 256 % 256 = n / 256 := by
  omega

/-- Claim C5: each cycle, the power draw in watts equals the microjoule
delta divided by (poll interval in ms × 1000), rounded to nearest, and is
encoded big-endian in bytes 8–9 of the status frame.  The `2^52`/`2^53`
magnitude bounds are the range in which the exact rational model provably
coincides with the `f64` computation of the source. -/
theorem claim_C5_power_encoding (eStart eEnd poll c : Nat) (fahr : Bool) (u : ℚ)
    (h1 : eStart ≤ eEnd) (h64 : eEnd < 2^64)
    (hD : 0 < poll * 1000) (hD53 : poll * 1000 < 2^53)
    (hdelta : eEnd - eStart < 2^52)
    (hlim : rustRound (((eEnd : ℚ) - (eStart : ℚ)) / ((poll : ℚ) * 1000)) ≤ 65535) :
    (build_status_frame ⟨cpu_power eStart eEnd poll, c, fahr, u⟩).getD 8 0 =
      (rustRound (((eEnd : ℚ) - (eStart : ℚ)) / ((poll : ℚ) * 1000))).toNat / 256 ∧
    (build_status_frame ⟨cpu_power eStart eEnd poll, c, fahr, u⟩).getD 9 0 =
      (rustRound (((eEnd : ℚ) - (eStart : ℚ)) / ((poll : ℚ) * 1000))).toNat % 256 := by
  have hwrap : u64WrappingSub eEnd eStart = eEnd - eStart := by
    rw [u64WrappingSub]
    have ha : eStart % 2^64 = eStart := Nat.mod_eq_of_lt (by omega)
    have hb : eEnd % 2^64 = eEnd := Nat.mod_eq_of_lt h64
    rw [ha, hb]
    omega
  have hDmod : (poll * 1000) % 2^64 = poll * 1000 := Nat.mod_eq_of_lt (by omega)
  have hcp : cpu_power eStart eEnd poll =
      ((eEnd - eStart : ℕ) : ℚ) / ((poll * 1000 : ℕ) : ℚ) := by
    rw [cpu_power, hwrap, hDmod]
  have hq : ((eEnd : ℚ) - (eStart : ℚ)) / ((poll : ℚ) * 1000) =
      ((eEnd - eStart : ℕ) : ℚ) / ((poll * 1000 : ℕ) : ℚ) := by
    rw [Nat.cast_sub h1]
    push_cast
    ring
  rw [hq] at hlim ⊢
  rw [rustRound_natCast_div] at hlim
  have hr65535 : (2 * (eEnd - eStart) + poll * 1000) / (2 * (poll * 1000)) ≤ 65535 := by
    exact_mod_cast hlim
  have hpb : powerBytes (cpu_power eStart eEnd poll) =
      ((2 * (eEnd - eStart) + poll * 1000) / (2 * (poll * 1000)) / 256,
       (2 * (eEnd - eStart) + poll * 1000) / (2 * (poll * 1000)) % 256) := by
    rw [powerBytes, hcp, rustRound_natCast_div]
    rw [satCastU16_of_le (Int.natCast_nonneg _) (by exact_mod_cast hr65535)]
    rw [Int.toNat_natCast, u16BeBytes]
    rw [hi_byte_mod _ hr65535]
  constructor
  · rw [status_frame_byte8, hpb, rustRound_natCast_div, Int.toNat_natCast]
  · rw [status_frame_byte9, hpb, rustRound_natCast_div, Int.toNat_natCast]

/-- Claim C5 witness: energy_start = 1 000 000 µJ, energy_end = 2 500 000
µJ, interval = 750 ms yields 2.0 W encoded as bytes 0x00, 0x02. -/
theorem claim_C5_power_encoding_witness :
    (build_status_frame ⟨cpu_power 1000000 2500000 750, 52000, false, 3/4⟩).getD 8 0 = 0 ∧
    (build_status_frame ⟨cpu_power 1000000 2500000 750, 52000, false, 3/4⟩).getD 9 0 = 2 := by
  have hr : rustRound ((((2500000 : ℕ) : ℚ) - ((1000000 : ℕ) : ℚ)) / (((750 : ℕ) : ℚ) * 1000)) = 2 := by
    norm_num [rustRound]
  have h := claim_C5_power_encoding 1000000 2500000 750 52000 false (3/4)
    (by norm_num) (by norm_num) (by norm_num) (by norm_num) (by norm_num)
    (by rw [hr]; norm_num)
  rw [hr] at h
  simpa using h

/-- Claim C6: when the rounded power-draw value exceeds 65535, the
16-bit big-endian encoding at bytes 8–9 proceeds with no guard, error, or
range validation: the saturating cast silently produces 0xFFFF, so both
bytes read 255. -/
theorem claim_C6_power_overflow (p u : ℚ) (c : Nat) (fahr : Bool)
    (h : 65535 < rustRound p) :
    powerBytes p = (255, 255) ∧
    (build_status_frame ⟨p, c, fahr, u⟩).getD 8 0 = 255 ∧
    (build_status_frame ⟨p, c, fahr, u⟩).getD 9 0 = 255 := by
  have hpb : powerBytes p = (255, 255) := by
    rw [powerBytes, satCastU16_of_gt h]
    rfl
  exact ⟨hpb, by rw [status_frame_byte8, hpb], by rw [status_frame_byte9, hpb]⟩

/-- Claim C6 witness: a power value of one million watts rounds above
65535 and is encoded as 0xFF, 0xFF. -/
theorem claim_C6_power_overflow_witness :
    (build_status_frame ⟨1000000, 52000, false, 3/4⟩).getD 8 0 = 255 ∧
    (build_status_frame ⟨1000000, 52000, false, 3/4⟩).getD 9 0 = 255 :=
  (claim_C6_power_overflow 1000000 (3/4) 52000 false (by norm_num [rustRound])).2

/-- Claim C7: byte 15 of the status frame is the non-idle fraction times
100, rounded to nearest; and no clamping to the range 0 to 100 is applied
before encoding (a fraction of 3/2 would encode as 150). -/
theorem claim_C7_utilization (f p : ℚ) (c : Nat) (fahr : Bool)
    (h0 : 0 ≤ f) (h1 : f ≤ 1) :
    ((build_status_frame ⟨p, c, fahr, f⟩).getD 15 0 : ℤ) = rustRound (f * 100) ∧
    utilByte (4321/10000) = 43 ∧
    utilByte (3/2) = 150 := by
  refine ⟨?_, ?_, ?_⟩
  · rw [status_frame_byte15, utilByte]
    have hnn : (0 : ℚ) ≤ f * 100 := by positivity
    have hlo : 0 ≤ rustRound (f * 100) := rustRound_nonneg hnn
    have hhi : rustRound (f * 100) ≤ 100 := by
      apply rustRound_le_of_le hnn
      push_cast
      linarith
    rw [satCastU8_of_le hlo (by omega)]
    omega
  · norm_num [utilByte, rustRound, satCastU8]
    rfl
  · norm_num [utilByte, rustRound, satCastU8]
    rfl

/-- Claim C7 witness: a non-idle fraction of 0.4321 encodes as byte 43. -/
theorem claim_C7_utilization_witness :
    (build_status_frame ⟨2, 52000, false, 4321/10000⟩).getD 15 0 = 43 := by
  have h := (claim_C7_utilization (4321/10000) 2 52000 false (by norm_num) (by norm_num)).1
  have hr : rustRound ((4321/10000 : ℚ) * 100) = 43 := by norm_num [rustRound]
  rw [hr] at h
  exact_mod_cast h

/-- Claim C8: device discovery reports failure (exit 1) not only when no
attached device has vendor id 0x3633, but also when the first
vendor-matching device reports product id 0: zero is the not-found
sentinel, so such a device is treated as absent. -/
theorem claim_C8_device_discovery (devices : List (Nat × Nat)) :
    ((∀ d ∈ devices, d.1 ≠ VENDOR) → device_discovery devices = .error ()) ∧
    (∀ d, devices.find? (fun x => x.1 == VENDOR) = some d → d.2 = 0 →
      device_discovery devices = .error ()) := by
  constructor
  · intro hno
    have hfind : devices.find? (fun x => x.1 == VENDOR) = none := by
      rw [List.find?_eq_none]
      intro x hx
      simpa using hno x hx
    rw [device_discovery, discovered_product_id, hfind]
    rfl
  · intro d hfind hzero
    rw [device_discovery, discovered_product_id, hfind]
    simp [hzero]

/-- Claim C8 witness: a single attached device with vendor 0x3633 and
product id 0 is reported as not found. -/
theorem claim_C8_device_discovery_witness :
    device_discovery [(0x3633, 0)] = .error () :=
  (claim_C8_device_discovery [(0x3633, 0)]).2 (0x3633, 0) (by decide) rfl

/-- Claim C9: if the cumulative energy counter decreases across a sleep
window, the u64 subtraction wraps modulo 2^64 with no error raised, and
whenever the wrapped quotient still reaches 65536 the rounded saturating
cast to u16 puts 0xFF, 0xFF into bytes 8–9 of the status frame. -/
theorem claim_C9_counter_wrap (eStart eEnd poll c : Nat) (fahr : Bool) (u : ℚ)
    (hs : eStart < 2^64) (he : eEnd < eStart)
    (hpos : 0 < poll * 1000 % 2^64)
    (hbig : 65536 * (poll * 1000 % 2^64) ≤ 2^64 - (eStart - eEnd)) :
    u64WrappingSub eEnd eStart = 2^64 - (eStart - eEnd) ∧
    (build_status_frame ⟨cpu_power eStart eEnd poll, c, fahr, u⟩).getD 8 0 = 255 ∧
    (build_status_frame ⟨cpu_power eStart eEnd poll, c, fahr, u⟩).getD 9 0 = 255 := by
  have hwrap : u64WrappingSub eEnd eStart = 2^64 - (eStart - eEnd) := by
    rw [u64WrappingSub]
    have ha : eStart % 2^64 = eStart := Nat.mod_eq_of_lt hs
    have hb : eEnd % 2^64 = eEnd := Nat.mod_eq_of_lt (by omega)
    rw [ha, hb]
    omega
  have hq : (65536 : ℚ) ≤ cpu_power eStart eEnd poll := by
    rw [cpu_power, hwrap]
    rw [le_div_iff₀ (by exact_mod_cast hpos)]
    exact_mod_cast hbig
  have hround : 65535 < rustRound (cpu_power eStart eEnd poll) := by
    have h65536 : (65536 : ℤ) ≤ rustRound (cpu_power eStart eEnd poll) :=
      @rustRound_ge_of_ge (cpu_power eStart eEnd poll) 65536
        (le_trans (by norm_num) hq) (by exact_mod_cast hq)
    omega
  have hpb : powerBytes (cpu_power eStart eEnd poll) = (255, 255) := by
    rw [powerBytes, satCastU16_of_gt hround]
    rfl
  exact ⟨hwrap, by rw [status_frame_byte8, hpb], by rw [status_frame_byte9, hpb]⟩

/-- Claim C9 witness: energy readings 1000 µJ then 500 µJ with the default
750 ms interval wrap to an enormous delta and encode as 0xFF, 0xFF. -/
theorem claim_C9_counter_wrap_witness :
    u64WrappingSub 500 1000 = 2^64 - 500 ∧
    (build_status_frame ⟨cpu_power 1000 500 750, 52000, false, 3/4⟩).getD 8 0 = 255 ∧
    (build_status_frame ⟨cpu_power 1000 500 750, 52000, false, 3/4⟩).getD 9 0 = 255 :=
  claim_C9_counter_wrap 1000 500 750 52000 false (3/4)
    (by norm_num) (by norm_num) (by norm_num) (by norm_num)

/-- Claim C10: for every readable, parsable raw sensor value, `get_temp`
returns an integer in 0..=255; the float-to-u8 cast saturates, so a value
that scales and rounds above 255 yields exactly 255; consequently the
IEEE-754 float encoded big-endian at bytes 11–14 of every status frame is
integer-valued and lies in the range 0 to 255. -/
theorem claim_C10_temp_saturation (c : Nat) (fahr : Bool) (p u : ℚ) :
    get_temp c fahr ≤ 255 ∧
    (255 < rustRound ((get_temp_milli c fahr : ℚ) / 1000) → get_temp c fahr = 255) ∧
    decodeF32 (
      (build_status_frame ⟨p, c, fahr, u⟩).getD 11 0 * 2^24 +
      (build_status_frame ⟨p, c, fahr, u⟩).getD 12 0 * 2^16 +
      (build_status_frame ⟨p, c, fahr, u⟩).getD 13 0 * 2^8 +
      (build_status_frame ⟨p, c, fahr, u⟩).getD 14 0) = (get_temp c fahr : ℚ) := by
  refine ⟨satCastU8_le _, ?_, ?_⟩
  · intro hgt
    rw [get_temp, satCastU8_of_gt hgt]
  · rw [status_frame_byte11, status_frame_byte12, status_frame_byte13, status_frame_byte14]
    have hlt : f32BitsOfNat (get_temp c fahr) < 2^32 :=
      f32BitsOfNat_lt _ (by have := satCastU8_le (rustRound ((get_temp_milli c fahr : ℚ) / 1000)); rw [get_temp]; omega)
    have hrec : (f32BeBytes (get_temp c fahr)).1 * 2^24 +
        (f32BeBytes (get_temp c fahr)).2.1 * 2^16 +
        (f32BeBytes (get_temp c fahr)).2.2.1 * 2^8 +
        (f32BeBytes (get_temp c fahr)).2.2.2 = f32BitsOfNat (get_temp c fahr) := by
      rw [f32BeBytes]
      simp only
      omega
    rw [hrec]
    exact decodeF32_f32BitsOfNat _ (by have := satCastU8_le (rustRound ((get_temp_milli c fahr : ℚ) / 1000)); rw [get_temp]; omega)

/-- Claim C10 witness: the raw reading 300000 in Celsius mode scales to
300 which rounds above 255, and the returned value saturates at exactly
255. -/
theorem claim_C10_temp_saturation_witness :
    255 < rustRound ((get_temp_milli 300000 false : ℚ) / 1000) ∧
    get_temp 300000 false = 255 := by
  have hm : get_temp_milli 300000 false = 300000 := by norm_num [get_temp_milli]
  have hr : rustRound ((get_temp_milli 300000 false : ℚ) / 1000) = 300 := by
    rw [hm]
    norm_num [rustRound]
  have h := (claim_C10_temp_saturation 300000 false 0 0).2.1 (by rw [hr]; norm_num)
  exact ⟨by rw [hr]; norm_num, h⟩
